import Mathlib

/-!
Verification of a small CRUD service over a single `items` table.

The data model and each request handler from `src/main.py` are embedded as
pure Lean functions: the relational store is a list of rows, the async
database round-trips become list operations, and each handler returns the
HTTP status, the response body, and the resulting store.  Prices are
modelled as exact rationals; the comparisons the handlers perform on them
(`gt=0`, `<= max_price`) are order comparisons preserved by this embedding.
-/

/-- A row of the `items` table / a validated `Item` pydantic model:
integer `id`, `name` string, nullable `description`, `price` number. -/
structure Item where
  id : Int
  name : String
  description : Option String
  price : ℚ
deriving DecidableEq, Repr

/-- An HTTP response for the single-item endpoints: status code plus
optional `Item` body (delete returns no body, errors return no body). -/
structure Resp where
  status : Nat
  body : Option Item
deriving DecidableEq, Repr

/-- Response of the list endpoint: status code plus a list of items. -/
structure ListResp where
  status : Nat
  body : List Item
deriving DecidableEq, Repr

/-- The `database.fetch_one(select(ItemInDB).where(ItemInDB.id == i))`
round-trip: first stored row whose id equals `i`, if any. -/
def fetch_one (db : List Item) (i : Int) : Option Item :=
  db.find? (fun r => r.id == i)

/-- POST /items/ — `create_item`: 409 if a row with the same id exists,
otherwise insert the row and answer 201 with the item. -/
def create_item (db : List Item) (item : Item) : Resp × List Item :=
  match fetch_one db item.id with
  | some _ => (⟨409, none⟩, db)
  | none => (⟨201, some item⟩, db ++ [item])

/-- GET /items/{item_id} — `read_item`: 404 if absent, else 200 with the
row. Pure: the store is not changed. -/
def read_item (db : List Item) (item_id : Int) : Resp :=
  match fetch_one db item_id with
  | none => ⟨404, none⟩
  | some row => ⟨200, some row⟩

/-- PUT /items/{item_id} — `update_item`: 404 if the path id is absent,
then 400 if the body id differs from the path id, otherwise overwrite
every column of the matching row and answer 200 with the body. -/
def update_item (db : List Item) (item_id : Int) (updated : Item) :
    Resp × List Item :=
  match fetch_one db item_id with
  | none => (⟨404, none⟩, db)
  | some _ =>
    if updated.id ≠ item_id then (⟨400, none⟩, db)
    else (⟨200, some updated⟩,
      db.map (fun r => if r.id == item_id then updated else r))

/-- DELETE /items/{item_id} — `delete_item`: 404 if absent, otherwise
remove the row and answer 204 with no body. -/
def delete_item (db : List Item) (item_id : Int) : Resp × List Item :=
  match fetch_one db item_id with
  | none => (⟨404, none⟩, db)
  | some _ => (⟨204, none⟩, db.filter (fun r => r.id != item_id))

/-- GET /items — `list_items`: fetch all rows, then, if `max_price` was
given, keep in the application layer only the items whose price is at most
`max_price`. Always answers 200. -/
def list_items (db : List Item) (max_price : Option ℚ) : ListResp :=
  let items_list := db
  match max_price with
  | none => ⟨200, items_list⟩
  | some p => ⟨200, items_list.filter (fun i => decide (i.price ≤ p))⟩

/-- Character class of the pydantic pattern for names: `[a-zA-Z0-9]`. -/
def isAlnumAscii (c : Char) : Bool :=
  ('a' ≤ c && c ≤ 'z') || ('A' ≤ c && c ≤ 'Z') || ('0' ≤ c && c ≤ '9')

/-- The regex constraint on names, `^[a-zA-Z0-9]+$` (anchored at both ends
of the whole string): one or more characters, all in the class. -/
def matchesNamePattern (s : String) : Bool :=
  decide (1 ≤ s.length) && s.toList.all isAlnumAscii

/-- Pydantic constraints of the `name` field:
`min_length=3, max_length=50, pattern="^[a-zA-Z0-9]+$"`. -/
def validName (s : String) : Bool :=
  decide (3 ≤ s.length) && decide (s.length ≤ 50) && matchesNamePattern s

/-- Pydantic constraints of the `description` field:
optional, `max_length=200`; an absent description is valid. -/
def validDescription : Option String → Bool
  | none => true
  | some s => decide (s.length ≤ 200)

/-- Pydantic constraint of the `price` field: `gt=0`. -/
def validPrice (p : ℚ) : Bool :=
  decide (0 < p)

/-- An `Item` value passes pydantic validation iff all field constraints
hold (`id` has no constraint beyond being an integer). -/
def Item.validated (it : Item) : Bool :=
  validName it.name && validDescription it.description && validPrice it.price

/-- One request against the service, for the state-machine view. -/
inductive Op where
  | create (item : Item)
  | read (item_id : Int)
  | update (item_id : Int) (item : Item)
  | delete (item_id : Int)
  | list (max_price : Option ℚ)
deriving Repr

/-- The store after handling one request (read and list do not write). -/
def step (db : List Item) : Op → List Item
  | .create it => (create_item db it).2
  | .read _ => db
  | .update i it => (update_item db i it).2
  | .delete i => (delete_item db i).2
  | .list _ => db

/-- The store reached from the empty store by a sequence of requests. -/
def runOps (ops : List Op) : List Item :=
  ops.foldl step []

/-- An id is present when some stored row carries it. -/
def present (db : List Item) (i : Int) : Bool :=
  (fetch_one db i).isSome

/-- At most one persisted row per id. -/
def uniqueIds (db : List Item) : Prop :=
  (db.map Item.id).Nodup

/-- Concrete item used to instantiate the general theorems. -/
def itemW1 : Item := ⟨1, "Widget1", some "A widget", 5⟩

/-- A second item with the same id as `itemW1` but different fields. -/
def itemW2 : Item := ⟨1, "Other99", none, 7⟩

/-- An item with id 2, for mismatch scenarios. -/
def itemW3 : Item := ⟨2, "Other99", none, 7⟩

/-- A full replacement for `itemW1` under the same id. -/
def itemW4 : Item := ⟨1, "Widget2", none, 19⟩

/-! ### Helper lemmas about the store round-trips -/

lemma fetch_one_forall_ne {db : List Item} {i : Int}
    (h : fetch_one db i = none) : ∀ r ∈ db, r.id ≠ i := by
  intro r hr
  have := List.find?_eq_none.mp h r hr
  simpa using this

lemma fetch_one_append_self (db : List Item) (item : Item)
    (h : fetch_one db item.id = none) :
    fetch_one (db ++ [item]) item.id = some item := by
  unfold fetch_one at h ⊢
  rw [List.find?_append, h]
  simp

lemma present_iff_fetch_some {db : List Item} {i : Int} :
    present db i = true ↔ ∃ r, fetch_one db i = some r := by
  unfold present
  cases h : fetch_one db i <;> simp [h]

lemma present_false_fetch_none {db : List Item} {i : Int}
    (h : present db i = false) : fetch_one db i = none := by
  unfold present at h
  cases hf : fetch_one db i
  · rfl
  · rw [hf] at h; simp at h

lemma fetch_one_filter_ne (db : List Item) (i : Int) :
    fetch_one (db.filter (fun r => r.id != i)) i = none := by
  unfold fetch_one
  rw [List.find?_eq_none]
  intro x hx
  have hxq := (List.mem_filter.mp hx).2
  simp only [bne_iff_ne, ne_eq] at hxq
  simp [hxq]

lemma fetch_one_map_replace (db : List Item) (p : Int) (u : Item)
    (hu : u.id = p) (h : present db p = true) :
    fetch_one (db.map (fun r => if r.id == p then u else r)) p = some u := by
  induction db with
  | nil => simp [present, fetch_one] at h
  | cons a t ih =>
    cases hb : a.id == p with
    | true =>
      unfold fetch_one
      simp only [List.map_cons]
      rw [if_pos hb]
      exact List.find?_cons_of_pos _ (by simpa using hu)
    | false =>
      have ht : present t p = true := by
        unfold present fetch_one at h ⊢
        rwa [List.find?_cons_of_neg _ (by simp [hb])] at h
      unfold fetch_one
      simp only [List.map_cons]
      rw [if_neg (by simp [hb])]
      rw [List.find?_cons_of_neg _ (by simp [hb])]
      exact ih ht

/-! ### Claim theorems -/

/-- C1: creating an item whose id is not yet stored succeeds with 201 and
persists the row; a second create with the same id — whatever the other
fields — answers 409 and leaves the store unchanged. -/
theorem create_uniqueness (db : List Item) (item item2 : Item)
    (hid : item2.id = item.id) (habs : fetch_one db item.id = none) :
    create_item db item = (⟨201, some item⟩, db ++ [item]) ∧
    (create_item (db ++ [item]) item2).1.status = 409 ∧
    (create_item (db ++ [item]) item2).2 = db ++ [item] := by
  have h2 : fetch_one (db ++ [item]) item2.id = some item := by
    rw [hid]; exact fetch_one_append_self db item habs
  refine ⟨by simp [create_item, habs], by simp [create_item, h2],
    by simp [create_item, h2]⟩

theorem create_uniqueness_witness :
    create_item [] itemW1 = (⟨201, some itemW1⟩, [] ++ [itemW1]) ∧
    (create_item ([] ++ [itemW1]) itemW2).1.status = 409 ∧
    (create_item ([] ++ [itemW1]) itemW2).2 = [] ++ [itemW1] :=
  create_uniqueness [] itemW1 itemW2 rfl rfl

/-- C2: for a validly-constructed item whose id is absent, create followed
by read of that id returns an item equal in all fields to the one created. -/
theorem create_read_roundtrip (db : List Item) (item : Item)
    (hvalid : item.validated = true) (habs : fetch_one db item.id = none) :
    read_item (create_item db item).2 item.id = ⟨200, some item⟩ := by
  have h1 : (create_item db item).2 = db ++ [item] := by
    simp [create_item, habs]
  rw [h1]
  simp [read_item, fetch_one_append_self db item habs]

theorem create_read_roundtrip_witness :
    read_item (create_item [] itemW1).2 itemW1.id = ⟨200, some itemW1⟩ :=
  create_read_roundtrip [] itemW1 (by decide) rfl

/-- C3: list with a max_price bound answers 200 with exactly the stored
items of price at most that bound (inclusive, filtered after retrieving
the rows), list without the bound answers 200 with all stored items, and
neither form fails. -/
theorem list_filter_correct (db : List Item) (P : ℚ) :
    (list_items db (some P)).status = 200 ∧
    (list_items db none).status = 200 ∧
    (list_items db none).body = db ∧
    (∀ i : Item, i ∈ (list_items db (some P)).body ↔ i ∈ db ∧ i.price ≤ P) := by
  refine ⟨rfl, rfl, rfl, fun i => ?_⟩
  simp [list_items]

theorem list_filter_correct_witness :
    (list_items [itemW1] none).body = [itemW1] ∧
    (itemW1 ∈ (list_items [itemW1] (some 5)).body ↔
      itemW1 ∈ [itemW1] ∧ itemW1.price ≤ 5) :=
  ⟨(list_filter_correct [itemW1] 5).2.2.1,
   (list_filter_correct [itemW1] 5).2.2.2 itemW1⟩

/-- C4: an update addressed to a stored path id whose body carries a
different id fails with 400 and leaves the whole store unchanged. -/
theorem update_id_mismatch (db : List Item) (p : Int) (b : Item)
    (hpres : present db p = true) (hneq : b.id ≠ p) :
    (update_item db p b).1 = ⟨400, none⟩ ∧ (update_item db p b).2 = db := by
  obtain ⟨r, hr⟩ := present_iff_fetch_some.mp hpres
  constructor <;> simp [update_item, hr, hneq]

theorem update_id_mismatch_witness :
    (update_item [itemW1] 1 itemW3).1 = ⟨400, none⟩ ∧
    (update_item [itemW1] 1 itemW3).2 = [itemW1] :=
  update_id_mismatch [itemW1] 1 itemW3 rfl (by decide)

/-- C5: an update whose body id equals the stored path id succeeds with
200 returning the new item, and a subsequent read of that id returns
exactly the new item with nothing kept from the old row. -/
theorem update_full_replace (db : List Item) (p : Int) (item : Item)
    (hpres : present db p = true) (hid : item.id = p) :
    (update_item db p item).1 = ⟨200, some item⟩ ∧
    read_item (update_item db p item).2 p = ⟨200, some item⟩ := by
  obtain ⟨r, hr⟩ := present_iff_fetch_some.mp hpres
  have h2 : (update_item db p item).2 =
      db.map (fun r => if r.id == p then item else r) := by
    simp [update_item, hr, hid]
  refine ⟨by simp [update_item, hr, hid], ?_⟩
  rw [h2]
  unfold read_item
  rw [fetch_one_map_replace db p item hid hpres]

theorem update_full_replace_witness :
    (update_item [itemW1] 1 itemW4).1 = ⟨200, some itemW4⟩ ∧
    read_item (update_item [itemW1] 1 itemW4).2 1 = ⟨200, some itemW4⟩ :=
  update_full_replace [itemW1] 1 itemW4 rfl rfl

/-- C6: deleting an absent id answers 404 and leaves the store unchanged;
deleting a present id answers 204 with no body, after which reading that
id answers 404. -/
theorem delete_semantics (db : List Item) (i : Int) :
    (present db i = false → delete_item db i = (⟨404, none⟩, db)) ∧
    (present db i = true →
      (delete_item db i).1 = ⟨204, none⟩ ∧
      read_item (delete_item db i).2 i = ⟨404, none⟩) := by
  constructor
  · intro h
    simp [delete_item, present_false_fetch_none h]
  · intro h
    obtain ⟨r, hr⟩ := present_iff_fetch_some.mp h
    have h2 : (delete_item db i).2 = db.filter (fun r => r.id != i) := by
      simp [delete_item, hr]
    refine ⟨by simp [delete_item, hr], ?_⟩
    rw [h2]
    simp [read_item, fetch_one_filter_ne db i]

theorem delete_semantics_witness :
    delete_item [] 1 = (⟨404, none⟩, []) ∧
    ((delete_item [itemW1] 1).1 = ⟨204, none⟩ ∧
      read_item (delete_item [itemW1] 1).2 1 = ⟨404, none⟩) :=
  ⟨(delete_semantics [] 1).1 rfl, (delete_semantics [itemW1] 1).2 rfl⟩

/-- C10: an update whose path id is absent fails with 404 — not with the
400 identity-mismatch error — even when the body id differs from the path
id, because the existence check runs before the identity check; the store
is unchanged. -/
theorem update_absent_mismatch_404 (db : List Item) (p : Int) (b : Item)
    (habs : present db p = false) (hneq : b.id ≠ p) :
    (update_item db p b).1 = ⟨404, none⟩ ∧
    (update_item db p b).2 = db ∧ (update_item db p b).1.status ≠ 400 := by
  have h := present_false_fetch_none habs
  refine ⟨by simp [update_item, h], by simp [update_item, h],
    by simp [update_item, h]⟩

theorem update_absent_mismatch_404_witness :
    (update_item [] 1 itemW3).1 = ⟨404, none⟩ ∧
    (update_item [] 1 itemW3).2 = [] ∧
    (update_item [] 1 itemW3).1.status ≠ 400 :=
  update_absent_mismatch_404 [] 1 itemW3 rfl (by decide)

/-! ### State-machine lemmas -/

lemma uniqueIds_step (db : List Item) (op : Op) (h : uniqueIds db) :
    uniqueIds (step db op) := by
  cases op with
  | read i => exact h
  | list mp => exact h
  | create it =>
    show uniqueIds (create_item db it).2
    cases hf : fetch_one db it.id with
    | some r =>
      have h2 : (create_item db it).2 = db := by simp [create_item, hf]
      rw [h2]; exact h
    | none =>
      have h2 : (create_item db it).2 = db ++ [it] := by simp [create_item, hf]
      rw [h2]
      unfold uniqueIds at h ⊢
      rw [List.map_append, List.nodup_append]
      refine ⟨h, List.nodup_singleton _, ?_⟩
      intro a ha1 ha2
      obtain ⟨r, hr, hrid⟩ := List.mem_map.mp ha1
      have hne := fetch_one_forall_ne hf r hr
      simp only [List.map_cons, List.map_nil, List.mem_singleton] at ha2
      exact hne (hrid.trans ha2)
  | delete i =>
    show uniqueIds (delete_item db i).2
    cases hf : fetch_one db i with
    | none =>
      have h2 : (delete_item db i).2 = db := by simp [delete_item, hf]
      rw [h2]; exact h
    | some r =>
      have h2 : (delete_item db i).2 = db.filter (fun r => r.id != i) := by
        simp [delete_item, hf]
      rw [h2]
      unfold uniqueIds at h ⊢
      exact ((List.filter_sublist db).map Item.id).nodup h
  | update i it =>
    show uniqueIds (update_item db i it).2
    cases hf : fetch_one db i with
    | none =>
      have h2 : (update_item db i it).2 = db := by simp [update_item, hf]
      rw [h2]; exact h
    | some r =>
      by_cases hid : it.id = i
      · have h2 : (update_item db i it).2 =
            db.map (fun r => if r.id == i then it else r) := by
          simp [update_item, hf, hid]
        rw [h2]
        unfold uniqueIds at h ⊢
        rw [List.map_map]
        have hmap : db.map (Item.id ∘ fun r => if r.id == i then it else r) =
            db.map Item.id := by
          apply List.map_congr_left
          intro a ha
          by_cases hai : a.id = i
          · simp [Function.comp, hai, hid]
          · simp [Function.comp, hai]
        rw [hmap]; exact h
      · have h2 : (update_item db i it).2 = db := by
          simp [update_item, hf, hid]
        rw [h2]; exact h

lemma uniqueIds_foldl (ops : List Op) :
    ∀ db, uniqueIds db → uniqueIds (ops.foldl step db) := by
  induction ops with
  | nil => intro db h; exact h
  | cons o t ih => intro db h; exact ih _ (uniqueIds_step db o h)

/-- C7: every store reachable from the empty store holds at most one row
per id, and each id behaves as a two-state machine: create moves absent to
present and answers 409 leaving the store unchanged when already present,
delete moves present to absent and answers 404 leaving the store unchanged
when already absent, update keeps a present id present and answers 404
leaving the store unchanged when absent, and read and list never change
the store. -/
theorem state_machine_invariant :
    (∀ ops : List Op, uniqueIds (runOps ops)) ∧
    (∀ db it, present db it.id = false →
      (create_item db it).1.status = 201 ∧
      present (create_item db it).2 it.id = true) ∧
    (∀ db it, present db it.id = true →
      (create_item db it).1.status = 409 ∧ (create_item db it).2 = db) ∧
    (∀ db i, present db i = true →
      (delete_item db i).1.status = 204 ∧
      present (delete_item db i).2 i = false) ∧
    (∀ db i, present db i = false →
      (delete_item db i).1.status = 404 ∧ (delete_item db i).2 = db) ∧
    (∀ db i it, present db i = true →
      present (update_item db i it).2 i = true) ∧
    (∀ db i it, present db i = false →
      (update_item db i it).1.status = 404 ∧ (update_item db i it).2 = db) ∧
    (∀ db i, step db (Op.read i) = db) ∧
    (∀ db mp, step db (Op.list mp) = db) := by
  refine ⟨fun ops => uniqueIds_foldl ops [] (by simp [uniqueIds]),
    ?_, ?_, ?_, ?_, ?_, ?_, fun db i => rfl, fun db mp => rfl⟩
  · intro db it h
    have hf := present_false_fetch_none h
    have h2 : (create_item db it).2 = db ++ [it] := by simp [create_item, hf]
    refine ⟨by simp [create_item, hf], ?_⟩
    unfold present
    rw [h2, fetch_one_append_self db it hf]
    rfl
  · intro db it h
    obtain ⟨r, hr⟩ := present_iff_fetch_some.mp h
    exact ⟨by simp [create_item, hr], by simp [create_item, hr]⟩
  · intro db i h
    obtain ⟨r, hr⟩ := present_iff_fetch_some.mp h
    have h2 : (delete_item db i).2 = db.filter (fun r => r.id != i) := by
      simp [delete_item, hr]
    refine ⟨by simp [delete_item, hr], ?_⟩
    unfold present
    rw [h2, fetch_one_filter_ne db i]
    rfl
  · intro db i h
    have hf := present_false_fetch_none h
    exact ⟨by simp [delete_item, hf], by simp [delete_item, hf]⟩
  · intro db i it h
    obtain ⟨r, hr⟩ := present_iff_fetch_some.mp h
    by_cases hid : it.id = i
    · have h2 : (update_item db i it).2 =
          db.map (fun r => if r.id == i then it else r) := by
        simp [update_item, hr, hid]
      unfold present
      rw [h2, fetch_one_map_replace db i it hid h]
      rfl
    · have h2 : (update_item db i it).2 = db := by
        simp [update_item, hr, hid]
      rw [h2]; exact h
  · intro db i it h
    have hf := present_false_fetch_none h
    exact ⟨by simp [update_item, hf], by simp [update_item, hf]⟩

theorem state_machine_invariant_witness :
    uniqueIds (runOps [Op.create itemW1, Op.create itemW3, Op.delete 1]) ∧
    ((create_item [] itemW1).1.status = 201 ∧
      present (create_item [] itemW1).2 itemW1.id = true) :=
  ⟨state_machine_invariant.1 [Op.create itemW1, Op.create itemW3, Op.delete 1],
   state_machine_invariant.2.1 [] itemW1 rfl⟩

/-- C8: name validation accepts exactly the strings of length between 3
and 50 made only of characters in the class `[A-Za-z0-9]` — lengths 3 and
50 are accepted, 2 and 51 rejected, a character outside the class
rejected — and price validation accepts exactly the strictly positive
values, rejecting 0 and accepting 0.01. -/
theorem name_price_validation :
    (∀ s : String, validName s = true ↔
      (3 ≤ s.length ∧ s.length ≤ 50 ∧ ∀ c ∈ s.toList, isAlnumAscii c = true)) ∧
    validName (String.mk (List.replicate 3 'a')) = true ∧
    validName (String.mk (List.replicate 50 'a')) = true ∧
    validName (String.mk (List.replicate 2 'a')) = false ∧
    validName (String.mk (List.replicate 51 'a')) = false ∧
    validName "ab!" = false ∧
    (∀ p : ℚ, validPrice p = true ↔ 0 < p) ∧
    validPrice 0 = false ∧
    validPrice (1/100) = true := by
  refine ⟨fun s => ?_, by decide, by decide, by decide, by decide, by decide,
    fun p => by simp [validPrice], by decide, by norm_num [validPrice]⟩
  simp only [validName, matchesNamePattern, Bool.and_eq_true,
    decide_eq_true_eq, List.all_eq_true]
  constructor
  · rintro ⟨⟨h3, h50⟩, h1, hall⟩
    exact ⟨h3, h50, fun c hc => hall c hc⟩
  · rintro ⟨h3, h50, hall⟩
    exact ⟨⟨h3, h50⟩, by omega, fun c hc => hall c hc⟩

theorem name_price_validation_witness :
    validName "abc" = true ∧ (0 : ℚ) < 5 :=
  ⟨(name_price_validation.1 "abc").mpr (by decide),
   (name_price_validation.2.2.2.2.2.2.1 5).mp (by decide)⟩

/-- C9: description validation fails exactly when a description is present
with length above 200; an absent description is valid, a present empty
string is valid, and absence is a distinct value from the empty string. -/
theorem description_validation :
    (∀ d : Option String, validDescription d = false ↔
      ∃ s, d = some s ∧ 200 < s.length) ∧
    validDescription none = true ∧
    validDescription (some "") = true ∧
    (none : Option String) ≠ some "" := by
  refine ⟨fun d => ?_, rfl, by decide, by decide⟩
  cases d with
  | none => simp [validDescription]
  | some s => simp [validDescription, Nat.not_le]

set_option maxRecDepth 4096 in
theorem description_validation_witness :
    validDescription none = true ∧ validDescription (some "") = true ∧
    validDescription (some (String.mk (List.replicate 201 'a'))) = false :=
  ⟨description_validation.2.1, description_validation.2.2.1,
   (description_validation.1 (some (String.mk (List.replicate 201 'a')))).mpr
     ⟨String.mk (List.replicate 201 'a'), rfl, by decide⟩⟩
